import Mathlib

/-!
Verification of the PriceWise unit-normalization and ranking engine.

The development shallowly embeds the TypeScript sources:
  * `src/types.ts`                    — the data model,
  * `src/utils/unitConverter.ts`      — `getNormalizedData`, `getDisplayRate`,
  * the two `App` variants            — sort-key extraction (`getItemRate`),
    sorting (`sortedItems`), best-rate computation (`bestRate`), per-card
    annotation (`isBest`, `percentageDiff`) and the scale toggle.

JavaScript numbers are modelled as exact rationals, `Infinity` as the
`none` value of `Option ℚ` (used as the sort-key type), and rate tables as
association lists mirroring JS object literals.  Falsiness of `0`,
`undefined` and `null` is modelled explicitly wherever the source relies
on it (`rates[key] || rates['UNIT'] || Infinity`, `count || 1`,
`bestRate && …`).
-/

namespace PriceWise

/-- `src/types.ts`: `ItemStatus = 'analyzing' | 'error' | 'complete'`.
The spec calls these `pending`, `failed` and `ready` respectively. -/
inductive ItemStatus where
  | analyzing
  | error
  | complete
deriving DecidableEq

/-- `src/types.ts`: `UnitCategory = 'weight' | 'volume' | 'count'`. -/
inductive UnitCategory where
  | weight
  | volume
  | count
deriving DecidableEq

/-- `src/types.ts`: `GlobalComparisonUnit = 'small' | 'large' | 'individual'`. -/
inductive GlobalComparisonUnit where
  | small
  | large
  | individual
deriving DecidableEq

/-- A JS object `{[key: string]: number}` of normalized rates, as an
association list with string keys. -/
abbrev RateTable := List (String × ℚ)

/-- `src/types.ts`: `GroceryItem`.  Optional fields are `Option`s
(`undefined` = `none`). -/
structure GroceryItem where
  id : String := ""
  imageUrl : String := ""
  status : ItemStatus
  name : Option String := none
  brand : Option String := none
  price : Option ℚ := none
  quantity : Option ℚ := none
  unit : Option String := none
  category : Option UnitCategory := none
  errorReason : Option String := none
  normalizedRates : Option RateTable := none
deriving DecidableEq

/-- `src/utils/unitConverter.ts`: the `NormalizedData` interface. -/
structure NormalizedData where
  rates : RateTable
  category : UnitCategory
  baseUnit : String
deriving DecidableEq

/-- Model of JS `String.prototype.toLowerCase` for the ASCII strings the
unit table uses: lower-case every Latin capital letter. -/
def jsToLower (s : String) : String :=
  ⟨s.data.map (fun c => if 'A' ≤ c ∧ c ≤ 'Z' then Char.ofNat (c.toNat + 32) else c)⟩

/-- Model of JS `String.prototype.trim`: drop whitespace from both ends. -/
def jsTrim (s : String) : String :=
  ⟨((s.data.dropWhile Char.isWhitespace).reverse.dropWhile Char.isWhitespace).reverse⟩

/-- `unit.toLowerCase().trim()` — the unit string as the synonym table sees it. -/
def normUnit (unit : String) : String :=
  jsTrim (jsToLower unit)

/-- The weight result shape of `getNormalizedData`: rates per 100 g, per
1 kg and per 1 lb over the canonical base quantity `g` in grams. -/
def weightRates (price g : ℚ) : NormalizedData :=
  { category := .weight
    baseUnit := "G"
    rates := [("100G", price / g * 100), ("1KG", price / g * 1000),
              ("1LB", price / g * 453.592)] }

/-- The volume result shape of `getNormalizedData`: rates per 100 ml, per
1 L and per 1 fl oz over the canonical base quantity `ml` in milliliters. -/
def volumeRates (price ml : ℚ) : NormalizedData :=
  { category := .volume
    baseUnit := "ML"
    rates := [("100ML", price / ml * 100), ("1L", price / ml * 1000),
              ("FL OZ", price / ml * 29.5735)] }

/-- The count result shape of `getNormalizedData`, with the source's
`price / (count || 1)` guard: a falsy count (`0` on this path) becomes 1. -/
def countRates (price count : ℚ) : NormalizedData :=
  let c : ℚ := if count = 0 then 1 else count
  { category := .count
    baseUnit := "UNIT"
    rates := [("UNIT", price / c), ("DOZEN", price / c * 12)] }

/-- `src/utils/unitConverter.ts` lines 10–62: `getNormalizedData`.
The source resolves the unit through one `else`-if chain that assigns at
most one of `weightInGrams` / `volumeInMl` / `count` and then builds the
result for whichever is set; here the same first-match chain returns the
corresponding result directly, with identical conversions and rates. -/
def getNormalizedData (price quantity : ℚ) (unit : String) : NormalizedData :=
  let u := normUnit unit
  if ["g", "gram", "grams"].contains u then weightRates price quantity
  else if ["kg", "kilogram", "kilograms", "kilo"].contains u then
    weightRates price (quantity * 1000)
  else if ["oz", "ounce", "ounces"].contains u then weightRates price (quantity * 28.3495)
  else if ["lb", "lbs", "pound", "pounds"].contains u then
    weightRates price (quantity * 453.592)
  else if ["ml", "milliliter", "milliliters"].contains u then volumeRates price quantity
  else if ["l", "liter", "liters", "litre"].contains u then volumeRates price (quantity * 1000)
  else if ["fl oz", "floz", "fluid ounce"].contains u then
    volumeRates price (quantity * 29.5735)
  else countRates price quantity

/-- `src/utils/unitConverter.ts` lines 64–73: `getDisplayRate`.
`rates[k]` is an `Option ℚ` lookup (`undefined` = `none`). -/
def getDisplayRate (rates : RateTable) (scale : GlobalComparisonUnit)
    (category : UnitCategory) : Option ℚ × String :=
  if category = .weight then
    if scale = .large then (rates.lookup "1KG", "1KG") else (rates.lookup "100G", "100G")
  else if category = .volume then
    if scale = .large then (rates.lookup "1L", "1L") else (rates.lookup "100ML", "100ML")
  else
    (rates.lookup "UNIT", "UNIT")

/-- JS `a || b` on rate lookups: a missing (`undefined`) or zero left
operand yields the right operand. -/
def jsOr (a b : Option ℚ) : Option ℚ :=
  match a with
  | some v => if v = 0 then b else some v
  | none => b

/-- Sort keys are JS numbers that are either finite (`some q`) or
`Infinity` (`none`). -/
abbrev SortKey := Option ℚ

/-- Strict `<` on sort keys, with `none` as `Infinity`. -/
def keyLt : SortKey → SortKey → Bool
  | some a, some b => decide (a < b)
  | some _, none => true
  | none, _ => false

/-- Non-strict `≤` on sort keys. -/
def keyLE (a b : SortKey) : Bool :=
  !(keyLt b a)

/-- The sign of the JS subtraction `a - b` used by the sort comparator;
`Infinity - Infinity` is `NaN`, which `Array.prototype.sort` treats as `0`. -/
def keyCmp : SortKey → SortKey → Int
  | none, none => 0
  | none, some _ => 1
  | some _, none => -1
  | some a, some b => if a < b then -1 else if b < a then 1 else 0

/-- The scale-selected denomination key, shared verbatim by both `App`
variants: `currentScale === 'large' ? (weight ? '1KG' : '1L') : (weight ?
'100G' : '100ML')`. -/
def rateKey (category : Option UnitCategory) (currentScale : GlobalComparisonUnit) : String :=
  if currentScale = .large then
    (if category = some .weight then "1KG" else "1L")
  else
    (if category = some .weight then "100G" else "100ML")

/-- The sort comparator shared (up to the key extractor) by both `App`
variants, as the sign of the value the JS comparator returns. -/
def cmpItems (key : GroceryItem → SortKey) (a b : GroceryItem) : Int :=
  if a.status = .analyzing ∧ b.status ≠ .analyzing then 1
  else if b.status = .analyzing ∧ a.status ≠ .analyzing then -1
  else if a.status = .error ∧ b.status = .complete then 1
  else if b.status = .error ∧ a.status = .complete then -1
  else keyCmp (key a) (key b)

/-- `a` may stay before `b` under the comparator: the comparator value is
`≤ 0`.  A stable sort with respect to this relation is exactly what
`Array.prototype.sort` produces for a consistent comparator. -/
def sortLE (key : GroceryItem → SortKey) (a b : GroceryItem) : Prop :=
  cmpItems key a b ≤ 0

instance (key : GroceryItem → SortKey) : DecidableRel (sortLE key) :=
  fun a b => inferInstanceAs (Decidable (cmpItems key a b ≤ 0))

/-- The accumulator step of the source's minimum computations:
`if (rate < lowest) lowest = rate` and `Math.min`. -/
def minKey (acc r : SortKey) : SortKey :=
  if keyLt r acc then r else acc

/-- `toggleScale` (identical in both `App` variants):
`setScale(prev => prev === 'small' ? 'large' : 'small')`. -/
def toggleScaleValue (prev : GlobalComparisonUnit) : GlobalComparisonUnit :=
  if prev = .small then .large else .small

/-- The `App` component state the claims touch: the item collection and
the comparison-scale selector. -/
structure AppState where
  items : List GroceryItem
  scale : GlobalComparisonUnit
deriving DecidableEq

/-- The scale toggle as a state transformer: only `scale` is written. -/
def toggleScale (s : AppState) : AppState :=
  { s with scale := toggleScaleValue s.scale }

namespace App1

/-- First `App` variant, `getItemRate`:
`rates[key] || rates['UNIT'] || Infinity` — a missing rate map, a missing
looked-up rate, or a looked-up rate of `0` falls through; the final
`|| Infinity` turns a falsy chain value into `Infinity` (`none`). -/
def getItemRate (item : GroceryItem) (currentScale : GlobalComparisonUnit) : SortKey :=
  if item.status ≠ .complete then none
  else match item.normalizedRates with
    | none => none
    | some rates =>
      match jsOr (rates.lookup (rateKey item.category currentScale)) (rates.lookup "UNIT") with
      | some v => if v = 0 then none else some v
      | none => none

/-- First `App` variant, `sortedItems`: a stable sort of a copy of
`items` by the status-banded rate comparator. -/
def sortedItems (items : List GroceryItem) (scale : GlobalComparisonUnit) : List GroceryItem :=
  List.insertionSort (sortLE (getItemRate · scale)) items

/-- First `App` variant, `bestRate`: `null` when there is no complete
item; otherwise the running minimum (`if (rate < lowest) lowest = rate`)
of the complete items' rates, with a final `lowest === Infinity ? null :
lowest` collapse, so the result is a finite rate or `null` (`none`). -/
def bestRate (items : List GroceryItem) (scale : GlobalComparisonUnit) : Option ℚ :=
  let completeItems := items.filter (·.status = .complete)
  if completeItems.isEmpty then none
  else completeItems.foldl (fun lowest item => minKey lowest (getItemRate item scale)) none

/-- First `App` variant, the `isBest` flag computed in `sortedItems.map`:
`item.status === 'complete' && bestRate && itemRate !== Infinity &&
Math.abs(itemRate - bestRate) < 0.0001` (with `bestRate` falsy when
`null` or `0`). -/
def isBest (item : GroceryItem) (scale : GlobalComparisonUnit)
    (bestRate : Option ℚ) : Bool :=
  match bestRate, getItemRate item scale with
  | some b, some k => item.status = .complete && b ≠ 0 && |k - b| < 0.0001
  | _, _ => false

/-- First `App` variant, `percentageDiff` from `sortedItems.map`: defined
only when the item is complete, `bestRate` is truthy, the item's rate is
finite and strictly above `bestRate`. -/
def percentageDiff (item : GroceryItem) (scale : GlobalComparisonUnit)
    (bestRate : Option ℚ) : Option ℚ :=
  match bestRate, getItemRate item scale with
  | some b, some k =>
    if item.status = .complete ∧ b ≠ 0 ∧ b < k then some ((k - b) / b * 100) else none
  | _, _ => none

end App1

namespace App2

/-- Second `App` variant, `getItemRate`:
`const rate = rates[key] || rates['UNIT']; return typeof rate === 'number'
? rate : Infinity` — unlike the first variant, a chain value of `0` is a
number and is returned as the key. -/
def getItemRate (item : GroceryItem) (currentScale : GlobalComparisonUnit) : SortKey :=
  if item.status ≠ .complete then none
  else match item.normalizedRates with
    | none => none
    | some rates =>
      match jsOr (rates.lookup (rateKey item.category currentScale)) (rates.lookup "UNIT") with
      | some v => some v
      | none => none

/-- Second `App` variant, `sortedItems`. -/
def sortedItems (items : List GroceryItem) (scale : GlobalComparisonUnit) : List GroceryItem :=
  List.insertionSort (sortLE (getItemRate · scale)) items

/-- Second `App` variant, `bestRate`:
`rates.length ? Math.min(...rates) : null` over the complete items'
rates — the result can be `Infinity` (`some none`), unlike the first
variant. -/
def bestRate (items : List GroceryItem) (scale : GlobalComparisonUnit) : Option SortKey :=
  let rates := (items.filter (·.status = .complete)).map (getItemRate · scale)
  if rates.isEmpty then none
  else some (rates.foldl minKey none)

/-- The possible values of the second variant's `percentageDiff`:
a finite number, `Infinity`, or `-Infinity` (the latter two arise from
`(Infinity - b) / b * 100` for finite positive / negative `b`). -/
inductive ExcessVal where
  | fin (q : ℚ)
  | posInf
  | negInf
deriving DecidableEq

/-- Second `App` variant, the `isBest` flag:
`item.status === 'complete' && bestRate && Math.abs(itemRate - bestRate)
< 0.0001`.  There is no `itemRate !== Infinity` guard, but an infinite
operand makes the absolute difference `Infinity` or `NaN`, never below
the tolerance. -/
def isBest (item : GroceryItem) (scale : GlobalComparisonUnit)
    (bestRate : Option SortKey) : Bool :=
  match bestRate with
  | none => false
  | some b =>
    if b = some 0 then false
    else match getItemRate item scale, b with
      | some k, some bv => item.status = .complete && |k - bv| < 0.0001
      | _, _ => false

/-- Second `App` variant, `percentageDiff`:
`(complete && bestRate && itemRate > bestRate) ? ((itemRate - bestRate) /
bestRate) * 100 : undefined`.  With `itemRate = Infinity` and a finite
truthy `bestRate` the comparison holds and the JS value is `±Infinity`
(by the sign of `bestRate`). -/
def percentageDiff (item : GroceryItem) (scale : GlobalComparisonUnit)
    (bestRate : Option SortKey) : Option ExcessVal :=
  match bestRate with
  | none => none
  | some b =>
    if b = some 0 then none
    else if item.status = .complete then
      match getItemRate item scale, b with
      | some k, some bv =>
        if bv < k then some (.fin ((k - bv) / bv * 100)) else none
      | none, some bv => some (if 0 < bv then .posInf else .negInf)
      | _, none => none
    else none

end App2

/-! ## Spec-side definitions

These follow the wording of the specification, for comparison with the
source-derived definitions above. -/

/-- Spec table of weight conversions: grams per one unit for every
recognized weight synonym (1 oz = 28.3495 g, 1 lb = 453.592 g), `none`
for anything else. -/
def gramsFactor (u : String) : Option ℚ :=
  if ["g", "gram", "grams"].contains u then some 1
  else if ["kg", "kilogram", "kilograms", "kilo"].contains u then some 1000
  else if ["oz", "ounce", "ounces"].contains u then some 28.3495
  else if ["lb", "lbs", "pound", "pounds"].contains u then some 453.592
  else none

/-- Spec table of volume conversions: milliliters per one unit for every
recognized volume synonym (1 fl oz = 29.5735 ml), `none` otherwise. -/
def mlFactor (u : String) : Option ℚ :=
  if ["ml", "milliliter", "milliliters"].contains u then some 1
  else if ["l", "liter", "liters", "litre"].contains u then some 1000
  else if ["fl oz", "floz", "fluid ounce"].contains u then some 29.5735
  else none

/-- The spec's display-denomination lookup table (§4.2): weight+large →
1KG, weight otherwise → 100G, volume+large → 1L, volume otherwise →
100ML, count → UNIT for every scale. -/
def displayKey (scale : GlobalComparisonUnit) (category : UnitCategory) : String :=
  match category, scale with
  | .weight, .large => "1KG"
  | .weight, _ => "100G"
  | .volume, .large => "1L"
  | .volume, _ => "100ML"
  | .count, _ => "UNIT"

/-- The spec's status priority band: ready (`complete`) first, then
failed (`error`), then pending (`analyzing`). -/
def statusRank : ItemStatus → ℕ
  | .complete => 0
  | .error => 1
  | .analyzing => 2

/-! ## Bridge lemmas: the normalizer branches by recognized unit family -/

lemma getNormalizedData_weight (price quantity : ℚ) (unit : String) (f : ℚ)
    (h : gramsFactor (normUnit unit) = some f) :
    getNormalizedData price quantity unit = weightRates price (quantity * f) := by
  unfold gramsFactor at h
  unfold getNormalizedData
  split_ifs at h ⊢ <;> (try (injection h with h2; subst h2)) <;> simp_all [weightRates]

lemma getNormalizedData_volume (price quantity : ℚ) (unit : String) (f : ℚ)
    (hw : gramsFactor (normUnit unit) = none)
    (h : mlFactor (normUnit unit) = some f) :
    getNormalizedData price quantity unit = volumeRates price (quantity * f) := by
  unfold gramsFactor at hw
  unfold mlFactor at h
  unfold getNormalizedData
  split_ifs at hw h ⊢ <;> (try (injection h with h2; subst h2)) <;> simp_all [volumeRates]

lemma getNormalizedData_count (price quantity : ℚ) (unit : String)
    (hw : gramsFactor (normUnit unit) = none)
    (hv : mlFactor (normUnit unit) = none) :
    getNormalizedData price quantity unit = countRates price quantity := by
  unfold gramsFactor at hw
  unfold mlFactor at hv
  unfold getNormalizedData
  split_ifs at hw hv ⊢
  simp_all

/-! ## Order facts about sort keys and the comparator -/

lemma keyLE_refl (a : SortKey) : keyLE a a = true := by
  cases a <;> simp [keyLE, keyLt, lt_irrefl]

lemma keyCmp_neg (a b : SortKey) : keyCmp a b = -keyCmp b a := by
  cases a with
  | none => cases b <;> rfl
  | some x =>
    cases b with
    | none => rfl
    | some y =>
      simp only [keyCmp]
      rcases lt_trichotomy x y with h | h | h
      · simp [h, asymm h]
      · subst h
        simp
      · simp [h, asymm h]

lemma keyLE_iff_keyCmp (a b : SortKey) : keyLE a b = true ↔ keyCmp a b ≤ 0 := by
  cases a with
  | none => cases b <;> simp [keyLE, keyLt, keyCmp]
  | some x =>
    cases b with
    | none => simp [keyLE, keyLt, keyCmp]
    | some y =>
      simp only [keyLE, keyLt, keyCmp, Bool.not_eq_true', decide_eq_false_iff_not]
      rcases lt_trichotomy x y with h | h | h
      · simp [h, asymm h]
      · subst h
        simp
      · simp [h, asymm h]

lemma keyLE_trans {a b c : SortKey} (h1 : keyLE a b = true) (h2 : keyLE b c = true) :
    keyLE a c = true := by
  cases a <;> cases b <;> cases c <;>
    simp_all [keyLE, keyLt, not_lt] <;>
    try linarith

lemma keyLE_none_iff (x : SortKey) : keyLE none x = true ↔ x = none := by
  cases x <;> simp [keyLE, keyLt]

lemma cmpItems_neg (key : GroceryItem → SortKey) (a b : GroceryItem) :
    cmpItems key a b = -cmpItems key b a := by
  rcases ha : a.status <;> rcases hb : b.status <;>
    simp [cmpItems, ha, hb] <;>
    try exact keyCmp_neg _ _

/-- The comparator accepts order `a` before `b` exactly when `a`'s status
band is strictly earlier, or the bands agree and `a`'s key is at most
`b`'s. -/
lemma cmpItems_le_iff (key : GroceryItem → SortKey) (a b : GroceryItem) :
    cmpItems key a b ≤ 0 ↔
      (statusRank a.status < statusRank b.status ∨
        (statusRank a.status = statusRank b.status ∧ keyLE (key a) (key b) = true)) := by
  have hcc := keyLE_iff_keyCmp (key a) (key b)
  rcases ha : a.status <;> rcases hb : b.status <;>
    simp [cmpItems, ha, hb, statusRank, ← hcc]

/-- The ordering the spec demands of the sorted view: weakly increasing
status band, and weakly increasing sort key within a band. -/
def RankerOrder (key : GroceryItem → SortKey) (a b : GroceryItem) : Prop :=
  statusRank a.status ≤ statusRank b.status ∧
    (statusRank a.status = statusRank b.status → keyLE (key a) (key b) = true)

lemma sortLE_isTotal (key : GroceryItem → SortKey) : IsTotal GroceryItem (sortLE key) := by
  refine ⟨fun a b => ?_⟩
  unfold sortLE
  rcases le_total (cmpItems key a b) 0 with h | h
  · exact Or.inl h
  · right
    rw [cmpItems_neg]
    omega

lemma sortLE_isTrans (key : GroceryItem → SortKey) : IsTrans GroceryItem (sortLE key) := by
  refine ⟨fun a b c hab hbc => ?_⟩
  unfold sortLE at *
  rw [cmpItems_le_iff] at *
  rcases hab with h1 | ⟨h1, k1⟩ <;> rcases hbc with h2 | ⟨h2, k2⟩
  · exact Or.inl (h1.trans h2)
  · exact Or.inl (h1.trans_eq h2)
  · exact Or.inl (h1 ▸ h2)
  · exact Or.inr ⟨h1.trans h2, keyLE_trans k1 k2⟩

/-- A stable sort by the status-banded comparator is pairwise ordered in
the spec's sense: status bands never interleave, and keys ascend within a
band. -/
lemma insertionSort_rankerOrder (key : GroceryItem → SortKey) (items : List GroceryItem) :
    (List.insertionSort (sortLE key) items).Pairwise (RankerOrder key) := by
  haveI := sortLE_isTotal key
  haveI := sortLE_isTrans key
  have hs := List.sorted_insertionSort (sortLE key) items
  refine hs.imp ?_
  intro a b hab
  rw [sortLE, cmpItems_le_iff] at hab
  rcases hab with h | ⟨h, hk2⟩
  · exact ⟨h.le, fun he => absurd he (by omega)⟩
  · exact ⟨h.le, fun _ => hk2⟩

/-! ## Facts about the running-minimum folds -/

lemma minKey_le_left (acc r : SortKey) : keyLE (minKey acc r) acc = true := by
  unfold minKey
  split
  · rename_i h
    cases acc <;> cases r <;> simp_all [keyLE, keyLt, le_of_lt]
  · exact keyLE_refl acc

lemma minKey_le_right (acc r : SortKey) : keyLE (minKey acc r) r = true := by
  unfold minKey
  split
  · exact keyLE_refl r
  · rename_i h
    cases acc <;> cases r <;> simp_all [keyLE, keyLt, not_lt]

lemma foldl_minKey_le (l : List SortKey) (acc : SortKey) :
    keyLE (l.foldl minKey acc) acc = true ∧
      ∀ x ∈ l, keyLE (l.foldl minKey acc) x = true := by
  induction l generalizing acc with
  | nil => simp [keyLE_refl]
  | cons x t ih =>
    have h := ih (minKey acc x)
    refine ⟨keyLE_trans h.1 (minKey_le_left acc x), ?_⟩
    intro y hy
    rcases List.mem_cons.1 hy with rfl | hy
    · exact keyLE_trans h.1 (minKey_le_right acc y)
    · exact h.2 y hy

lemma foldl_minKey_mem (l : List SortKey) (acc : SortKey) :
    l.foldl minKey acc = acc ∨ l.foldl minKey acc ∈ l := by
  induction l generalizing acc with
  | nil => exact Or.inl rfl
  | cons x t ih =>
    rw [List.foldl_cons]
    rcases ih (minKey acc x) with h | h
    · rw [h]
      unfold minKey
      split
      · exact Or.inr (List.mem_cons_self _ _)
      · exact Or.inl rfl
    · exact Or.inr (List.mem_cons_of_mem _ h)

lemma foldl_minKey_none_iff (l : List SortKey) :
    l.foldl minKey none = none ↔ ∀ x ∈ l, x = none := by
  constructor
  · intro h x hx
    have := (foldl_minKey_le l none).2 x hx
    rw [h, keyLE_none_iff] at this
    exact this
  · intro h
    induction l with
    | nil => rfl
    | cons x t ih =>
      have hx : x = none := h x (List.mem_cons_self _ _)
      subst hx
      rw [List.foldl_cons]
      have : minKey none none = none := rfl
      rw [this]
      exact ih fun y hy => h y (List.mem_cons_of_mem _ hy)

lemma filter_complete_empty_iff (items : List GroceryItem) :
    (items.filter (fun it => it.status = .complete)).isEmpty = true ↔
      ∀ it ∈ items, it.status ≠ .complete := by
  rw [List.isEmpty_iff, List.filter_eq_nil_iff]
  simp

/-! ## Lookup and rate-chain helpers -/

lemma lookup_mem : ∀ {l : RateTable} {k : String} {v : ℚ}, l.lookup k = some v → (k, v) ∈ l := by
  intro l
  induction l with
  | nil =>
    intro k v h
    simp [List.lookup] at h
  | cons p t ih =>
    intro k v h
    obtain ⟨a, b⟩ := p
    rw [List.lookup] at h
    by_cases hk : (k == a) = true
    · rw [hk] at h
      simp only [Option.some.injEq] at h
      subst h
      exact (eq_of_beq hk) ▸ List.mem_cons_self _ _
    · rw [Bool.not_eq_true] at hk
      rw [hk] at h
      exact List.mem_cons_of_mem _ (ih h)

/-- The shared fallback chain `rates[key] || rates['UNIT']` of both
`getItemRate` variants, exposed as a value (`none` = no rate map). -/
def chainVal (item : GroceryItem) (scale : GlobalComparisonUnit) : Option (Option ℚ) :=
  item.normalizedRates.map
    (fun rates => jsOr (rates.lookup (rateKey item.category scale)) (rates.lookup "UNIT"))

lemma getItemRate1_not_complete (item : GroceryItem) (scale : GlobalComparisonUnit)
    (h : item.status ≠ .complete) : App1.getItemRate item scale = none := by
  simp [App1.getItemRate, h]

lemma getItemRate2_not_complete (item : GroceryItem) (scale : GlobalComparisonUnit)
    (h : item.status ≠ .complete) : App2.getItemRate item scale = none := by
  simp [App2.getItemRate, h]

/-- The first variant's `bestRate` fold over complete items equals the
running-minimum fold over their extracted keys. -/
lemma bestRate1_as_fold (items : List GroceryItem) (scale : GlobalComparisonUnit) :
    App1.bestRate items scale =
      if (items.filter (fun it => it.status = .complete)).isEmpty then none
      else ((items.filter (fun it => it.status = .complete)).map
        (App1.getItemRate · scale)).foldl minKey none := by
  unfold App1.bestRate
  rw [List.foldl_map]

lemma bestRate2_as_fold (items : List GroceryItem) (scale : GlobalComparisonUnit) :
    App2.bestRate items scale =
      if (items.filter (fun it => it.status = .complete)).isEmpty then none
      else some (((items.filter (fun it => it.status = .complete)).map
        (App2.getItemRate · scale)).foldl minKey none) := by
  unfold App2.bestRate
  cases items.filter (fun it => it.status = .complete) <;> rfl

/-! ## Concrete items used by witnesses and counterexamples -/

/-- A ready weight item whose stored rates are all zero, as produced by
normalizing a price of 0 (e.g. `getNormalizedData 0 2 "kg"`). -/
def zeroRateItem : GroceryItem :=
  { status := .complete
    category := some .weight
    normalizedRates := some [("100G", 0), ("1KG", 0), ("1LB", 0)] }

/-- A ready count item with price 0: its stored UNIT and DOZEN rates are 0. -/
def freeCountItem : GroceryItem :=
  { status := .complete
    category := some .count
    normalizedRates := some [("UNIT", 0), ("DOZEN", 0)] }

/-- A ready item carrying an empty rate table. -/
def emptyRatesItem : GroceryItem :=
  { status := .complete
    category := some .weight
    normalizedRates := some [] }

/-- A ready weight item priced at 1 per 100 g. -/
def cheapItem : GroceryItem :=
  { status := .complete
    category := some .weight
    normalizedRates := some [("100G", 1), ("1KG", 10), ("1LB", 5)] }

/-- A ready weight item priced at 1.00005 per 100 g: strictly above
`cheapItem` but within the 1e-4 best-flag tolerance. -/
def nearItem : GroceryItem :=
  { status := .complete
    category := some .weight
    normalizedRates := some [("100G", 1.00005), ("1KG", 10.0005), ("1LB", 5)] }

end PriceWise

namespace PriceWise

/-! ## Claim theorems -/

/-- C1: for every price ≥ 0, quantity > 0 and recognized weight unit,
`normalize` returns category `weight` with rates 100G = price/grams·100,
1KG = price/grams·1000 (which is 10 times the 100G rate) and
1LB = price/grams·453.592, where grams is the quantity times the unit's
conversion factor (1 oz = 28.3495 g, 1 lb = 453.592 g); and for every
recognized volume unit, category `volume` with the analogous 100ML, 1L
(10 times the 100ML rate) and FL OZ rates over milliliters
(1 fl oz = 29.5735 ml). -/
theorem normalize_weight_volume_rates (price quantity : ℚ) (unit : String) (f : ℚ)
    (hp : 0 ≤ price) (hq : 0 < quantity) :
    (gramsFactor (normUnit unit) = some f →
      (getNormalizedData price quantity unit).category = .weight ∧
      (getNormalizedData price quantity unit).rates.lookup "100G"
        = some (price / (quantity * f) * 100) ∧
      (getNormalizedData price quantity unit).rates.lookup "1KG"
        = some (price / (quantity * f) * 1000) ∧
      (getNormalizedData price quantity unit).rates.lookup "1KG"
        = some (10 * (price / (quantity * f) * 100)) ∧
      (getNormalizedData price quantity unit).rates.lookup "1LB"
        = some (price / (quantity * f) * 453.592)) ∧
    (gramsFactor (normUnit unit) = none → mlFactor (normUnit unit) = some f →
      (getNormalizedData price quantity unit).category = .volume ∧
      (getNormalizedData price quantity unit).rates.lookup "100ML"
        = some (price / (quantity * f) * 100) ∧
      (getNormalizedData price quantity unit).rates.lookup "1L"
        = some (price / (quantity * f) * 1000) ∧
      (getNormalizedData price quantity unit).rates.lookup "1L"
        = some (10 * (price / (quantity * f) * 100)) ∧
      (getNormalizedData price quantity unit).rates.lookup "FL OZ"
        = some (price / (quantity * f) * 29.5735)) := by
  constructor
  · intro h
    rw [getNormalizedData_weight price quantity unit f h]
    refine ⟨rfl, ?_, ?_, ?_, ?_⟩ <;> simp [weightRates, List.lookup] <;> ring
  · intro hw h
    rw [getNormalizedData_volume price quantity unit f hw h]
    refine ⟨rfl, ?_, ?_, ?_, ?_⟩ <;> simp [volumeRates, List.lookup] <;> ring

/-- C1 witness: 3 currency units for 2 kg. -/
theorem normalize_weight_volume_rates_witness :
    (0:ℚ) ≤ 3 ∧ (0:ℚ) < 2 ∧
    (getNormalizedData 3 2 "kg").category = .weight ∧
    (getNormalizedData 3 2 "kg").rates.lookup "100G" = some (3 / (2 * 1000) * 100) ∧
    (getNormalizedData 3 2 "kg").rates.lookup "1KG" = some (10 * (3 / (2 * 1000) * 100)) := by
  have h := (normalize_weight_volume_rates 3 2 "kg" 1000 (by norm_num) (by norm_num)).1
    (by decide)
  exact ⟨by norm_num, by norm_num, h.1, h.2.1, h.2.2.2.1⟩

/-- C2: for every price ≥ 0, quantity > 0 and unit string matching no
weight or volume synonym, `normalize` falls back to category `count` with
rate UNIT = price/quantity and rate DOZEN = 12·(price/quantity); the
fallback is total — no error path exists. -/
theorem normalize_count_fallback (price quantity : ℚ) (unit : String)
    (hp : 0 ≤ price) (hq : 0 < quantity)
    (hw : gramsFactor (normUnit unit) = none)
    (hv : mlFactor (normUnit unit) = none) :
    (getNormalizedData price quantity unit).category = .count ∧
    (getNormalizedData price quantity unit).rates.lookup "UNIT" = some (price / quantity) ∧
    (getNormalizedData price quantity unit).rates.lookup "DOZEN"
      = some (12 * (price / quantity)) := by
  rw [getNormalizedData_count price quantity unit hw hv]
  refine ⟨rfl, ?_, ?_⟩ <;> simp [countRates, List.lookup, hq.ne'] <;> ring

/-- C2 witness: 3 currency units for 2 widgets. -/
theorem normalize_count_fallback_witness :
    (getNormalizedData 3 2 "widget").category = .count ∧
    (getNormalizedData 3 2 "widget").rates.lookup "UNIT" = some (3 / 2) ∧
    (getNormalizedData 3 2 "widget").rates.lookup "DOZEN" = some (12 * (3 / 2 : ℚ)) :=
  normalize_count_fallback 3 2 "widget" (by norm_num) (by norm_num) (by decide) (by decide)

/-- C3 counterexample: a ready weight item whose table stores a 100G rate
of 0 (price 0).  The table contains the scale-selected denomination, yet
both variants produce an infinite sort key, because the `||` chain treats
the stored 0 as missing — contradicting the claim that the key is
infinite only when the table lacks both the selected denomination and
UNIT. -/
theorem getItemRate_zero_rate_selected :
    zeroRateItem.status = .complete ∧
    (zeroRateItem.normalizedRates.getD []).lookup (rateKey zeroRateItem.category .small)
      = some 0 ∧
    App1.getItemRate zeroRateItem .small = none ∧
    App2.getItemRate zeroRateItem .small = none := by
  refine ⟨rfl, ?_, ?_, ?_⟩ <;> decide

/-- C3 amended: provided every stored rate is nonzero, the sort key is
infinite exactly when the item is not ready, has no rate map, or its
table lacks both the scale-selected denomination and the UNIT fallback;
a finite key is the scale-selected rate when present, else the UNIT rate
(count tables carry neither weight nor volume keys, so count items are
keyed by UNIT); and the two variants' extractors agree. -/
theorem getItemRate_characterization (item : GroceryItem) (scale : GlobalComparisonUnit)
    (hz : ∀ p ∈ item.normalizedRates.getD [], p.2 ≠ (0:ℚ)) :
    (App1.getItemRate item scale = none ↔
      ¬(item.status = .complete ∧ item.normalizedRates ≠ none ∧
        ((item.normalizedRates.getD []).lookup (rateKey item.category scale) ≠ none ∨
          (item.normalizedRates.getD []).lookup "UNIT" ≠ none))) ∧
    (∀ v : ℚ, App1.getItemRate item scale = some v →
      (item.normalizedRates.getD []).lookup (rateKey item.category scale) = some v ∨
      ((item.normalizedRates.getD []).lookup (rateKey item.category scale) = none ∧
        (item.normalizedRates.getD []).lookup "UNIT" = some v)) ∧
    App2.getItemRate item scale = App1.getItemRate item scale := by
  by_cases hst : item.status = .complete
  · cases hnr : item.normalizedRates with
    | none => simp [App1.getItemRate, App2.getItemRate, hst, hnr]
    | some r =>
      rw [hnr] at hz
      simp only [Option.getD_some] at hz ⊢
      cases hsel : r.lookup (rateKey item.category scale) with
      | some v =>
        have hv : v ≠ 0 := hz _ (lookup_mem hsel)
        simp [App1.getItemRate, App2.getItemRate, hst, hnr, hsel, jsOr, hv]
      | none =>
        cases hu : r.lookup "UNIT" with
        | some u =>
          have hu0 : u ≠ 0 := hz _ (lookup_mem hu)
          simp [App1.getItemRate, App2.getItemRate, hst, hnr, hsel, hu, jsOr, hu0]
        | none =>
          simp [App1.getItemRate, App2.getItemRate, hst, hnr, hsel, hu, jsOr]
  · simp [getItemRate1_not_complete _ _ hst, getItemRate2_not_complete _ _ hst, hst]

/-- C3 witness: on a ready weight item with nonzero rates the two
extractors coincide. -/
theorem getItemRate_characterization_witness :
    App2.getItemRate cheapItem .small = App1.getItemRate cheapItem .small :=
  (getItemRate_characterization cheapItem .small (by decide)).2.2

/-- C4 counterexample: with best-rate 1 and an item's key 1.00005 (within
the 1e-4 tolerance but strictly greater), both variants flag the item as
best AND assign it a percentage excess of 0.005 — contradicting the claim
that a within-tolerance item receives no excess value and that no item is
simultaneously best and in excess. -/
theorem best_flag_and_excess_coexist :
    App1.isBest nearItem .small (App1.bestRate [cheapItem, nearItem] .small) = true ∧
    App1.percentageDiff nearItem .small (App1.bestRate [cheapItem, nearItem] .small)
      = some (1 / 200) ∧
    App2.isBest nearItem .small (App2.bestRate [cheapItem, nearItem] .small) = true ∧
    App2.percentageDiff nearItem .small (App2.bestRate [cheapItem, nearItem] .small)
      = some (.fin (1 / 200)) := by
  have hb1 : App1.bestRate [cheapItem, nearItem] .small = some 1 := by
    unfold App1.bestRate App1.getItemRate
    simp [cheapItem, nearItem, List.lookup, jsOr, rateKey, minKey, keyLt]
    norm_num
  have hb2 : App2.bestRate [cheapItem, nearItem] .small = some (some 1) := by
    unfold App2.bestRate App2.getItemRate
    simp [cheapItem, nearItem, List.lookup, jsOr, rateKey, minKey, keyLt]
    norm_num
  have hr1 : App1.getItemRate nearItem .small = some (20001 / 20000) := by
    unfold App1.getItemRate
    simp [nearItem, List.lookup, jsOr, rateKey]
    norm_num
  have hr2 : App2.getItemRate nearItem .small = some (20001 / 20000) := by
    unfold App2.getItemRate
    simp [nearItem, List.lookup, jsOr, rateKey]
    norm_num
  rw [hb1, hb2]
  refine ⟨?_, ?_, ?_, ?_⟩
  · unfold App1.isBest
    rw [hr1]
    norm_num [nearItem, abs_lt]
  · unfold App1.percentageDiff
    rw [hr1]
    norm_num [nearItem]
  · unfold App2.isBest
    rw [hr2]
    norm_num [nearItem, abs_lt]
  · unfold App2.percentageDiff
    rw [hr2]
    norm_num [nearItem]

/-- C4 amended: for a ready item with finite key k and finite nonzero
best-rate b, the best flag holds exactly when the absolute difference is
below 1e-4, and an excess of (k − b)/b·100 is assigned exactly when
k > b — the two overlap when b < k < b + 1e-4.  A not-ready item, or one
with an infinite key, is never flagged best and (in the first variant)
never receives an excess; the second variant assigns an infinite-key
ready item an infinite excess when the best-rate is finite and nonzero. -/
theorem percentage_excess_behavior :
    (∀ (item : GroceryItem) (scale : GlobalComparisonUnit) (b k : ℚ),
      App1.getItemRate item scale = some k → item.status = .complete → b ≠ 0 →
      App1.isBest item scale (some b) = decide (|k - b| < 0.0001) ∧
      App1.percentageDiff item scale (some b)
        = if b < k then some ((k - b) / b * 100) else none) ∧
    (∀ (item : GroceryItem) (scale : GlobalComparisonUnit) (b : Option ℚ),
      item.status ≠ .complete ∨ App1.getItemRate item scale = none →
      App1.isBest item scale b = false ∧ App1.percentageDiff item scale b = none) ∧
    (∀ (item : GroceryItem) (scale : GlobalComparisonUnit) (b k : ℚ),
      App2.getItemRate item scale = some k → item.status = .complete → b ≠ 0 →
      App2.isBest item scale (some (some b)) = decide (|k - b| < 0.0001) ∧
      App2.percentageDiff item scale (some (some b))
        = if b < k then some (.fin ((k - b) / b * 100)) else none) ∧
    (∀ (item : GroceryItem) (scale : GlobalComparisonUnit) (b : ℚ),
      item.status = .complete → App2.getItemRate item scale = none → b ≠ 0 →
      App2.isBest item scale (some (some b)) = false ∧
      App2.percentageDiff item scale (some (some b))
        = some (if 0 < b then .posInf else .negInf)) ∧
    (∀ (item : GroceryItem) (scale : GlobalComparisonUnit) (b : Option SortKey),
      item.status ≠ .complete →
      App2.isBest item scale b = false ∧ App2.percentageDiff item scale b = none) := by
  refine ⟨?_, ?_, ?_, ?_, ?_⟩
  · intro item scale b k hk hst hb
    unfold App1.isBest App1.percentageDiff
    rw [hk]
    constructor
    · simp [hst, hb]
    · by_cases hbk : b < k <;> simp [hst, hb, hbk]
  · intro item scale b hor
    have hrate : App1.getItemRate item scale = none := by
      rcases hor with h | h
      · exact getItemRate1_not_complete _ _ h
      · exact h
    unfold App1.isBest App1.percentageDiff
    rw [hrate]
    cases b <;> exact ⟨rfl, rfl⟩
  · intro item scale b k hk hst hb
    unfold App2.isBest App2.percentageDiff
    rw [hk]
    constructor
    · simp [hst, hb]
    · by_cases hbk : b < k <;> simp [hst, hb, hbk]
  · intro item scale b hst hrate hb
    unfold App2.isBest App2.percentageDiff
    rw [hrate]
    refine ⟨?_, ?_⟩ <;> simp [hst, hb]
  · intro item scale b hst
    have hrate := getItemRate2_not_complete item scale hst
    unfold App2.isBest App2.percentageDiff
    rw [hrate]
    cases b with
    | none => exact ⟨rfl, rfl⟩
    | some bv =>
      by_cases h0 : bv = some 0
      · simp [h0]
      · cases bv <;> simp [h0, hst]

/-- C4 witness: with best-rate 2 and own rate 1, the item is neither
flagged best nor given an excess. -/
theorem percentage_excess_behavior_witness :
    App1.isBest cheapItem .small (some 2) = false ∧
    App1.percentageDiff cheapItem .small (some 2) = none := by
  have h := percentage_excess_behavior.1 cheapItem .small 2 1 (by decide) (by decide)
    (by norm_num)
  constructor
  · rw [h.1]
    norm_num
  · rw [h.2]
    norm_num

end PriceWise

namespace PriceWise

/-- C5: for every collection and scale, the sorted output is a
permutation of the input in which status bands never interleave — every
ready (`complete`) item precedes every failed (`error`) item, which
precedes every pending (`analyzing`) item — and items of equal status
appear in ascending sort-key order; this holds in both variants. -/
theorem sortedItems_status_bands (items : List GroceryItem) (scale : GlobalComparisonUnit) :
    (App1.sortedItems items scale).Perm items ∧
    (App1.sortedItems items scale).Pairwise (RankerOrder (App1.getItemRate · scale)) ∧
    (App2.sortedItems items scale).Perm items ∧
    (App2.sortedItems items scale).Pairwise (RankerOrder (App2.getItemRate · scale)) :=
  ⟨List.perm_insertionSort _ _, insertionSort_rankerOrder _ _,
    List.perm_insertionSort _ _, insertionSort_rankerOrder _ _⟩

/-- C6 counterexample: a collection whose only item is ready but carries
an empty rate table.  Its sort key is infinite, and the first variant's
best-rate is `null` even though a ready item exists — contradicting the
claim that the best-rate is `null` exactly when the collection has no
ready item.  (The second variant returns the infinite minimum instead.) -/
theorem best_rate_null_with_ready_item :
    emptyRatesItem.status = .complete ∧
    App1.bestRate [emptyRatesItem] .small = none ∧
    App2.bestRate [emptyRatesItem] .small = some none := by
  refine ⟨rfl, ?_, ?_⟩ <;> decide

/-- C6 amended: both best-rate computations range over ready items only:
the second variant is `null` exactly when no ready item exists and
otherwise returns the least sort key (possibly infinite) attained by a
ready item; the first variant is `null` exactly when every ready item's
key is infinite (in particular when there is no ready item) and otherwise
returns the least ready key, which is finite.  Prepending a non-ready
item changes neither best-rate, and a non-ready item is never flagged
best. -/
theorem best_rate_ready_minimum :
    (∀ (items : List GroceryItem) (scale : GlobalComparisonUnit),
      App2.bestRate items scale = none ↔ ∀ it ∈ items, it.status ≠ .complete) ∧
    (∀ (items : List GroceryItem) (scale : GlobalComparisonUnit) (b : SortKey),
      App2.bestRate items scale = some b →
      (∃ it ∈ items, it.status = .complete ∧ App2.getItemRate it scale = b) ∧
      (∀ it ∈ items, it.status = .complete → keyLE b (App2.getItemRate it scale) = true)) ∧
    (∀ (items : List GroceryItem) (scale : GlobalComparisonUnit),
      App1.bestRate items scale = none ↔
        ∀ it ∈ items, it.status = .complete → App1.getItemRate it scale = none) ∧
    (∀ (items : List GroceryItem) (scale : GlobalComparisonUnit) (b : ℚ),
      App1.bestRate items scale = some b →
      (∃ it ∈ items, it.status = .complete ∧ App1.getItemRate it scale = some b) ∧
      (∀ it ∈ items, it.status = .complete →
        keyLE (some b) (App1.getItemRate it scale) = true)) ∧
    (∀ (items : List GroceryItem) (scale : GlobalComparisonUnit) (it : GroceryItem),
      it.status ≠ .complete →
      App1.bestRate (it :: items) scale = App1.bestRate items scale ∧
      App2.bestRate (it :: items) scale = App2.bestRate items scale) ∧
    (∀ (it : GroceryItem) (scale : GlobalComparisonUnit) (b : Option ℚ),
      it.status ≠ .complete → App1.isBest it scale b = false) ∧
    (∀ (it : GroceryItem) (scale : GlobalComparisonUnit) (b : Option SortKey),
      it.status ≠ .complete → App2.isBest it scale b = false) := by
  refine ⟨?_, ?_, ?_, ?_, ?_, ?_, ?_⟩
  · intro items scale
    rw [bestRate2_as_fold]
    by_cases he : (items.filter (fun it => it.status = .complete)).isEmpty = true
    · rw [if_pos he]
      have hall := (filter_complete_empty_iff items).1 he
      exact ⟨fun _ => hall, fun _ => rfl⟩
    · rw [if_neg he]
      simp only [filter_complete_empty_iff] at he
      push_neg at he
      obtain ⟨it, hmem, hcomp⟩ := he
      constructor
      · intro h
        exact absurd h (by simp)
      · intro hall
        exact absurd hcomp (hall it hmem)
  · intro items scale b h
    rw [bestRate2_as_fold] at h
    by_cases he : (items.filter (fun it => it.status = .complete)).isEmpty = true
    · rw [if_pos he] at h
      exact absurd h (by simp)
    · rw [if_neg he, Option.some.injEq] at h
      subst h
      constructor
      · rcases foldl_minKey_mem
          ((items.filter (fun it => it.status = .complete)).map (App2.getItemRate · scale))
          none with h0 | hmem
        · rw [h0]
          have hne : items.filter (fun it => it.status = .complete) ≠ [] := by
            intro hnil
            rw [List.isEmpty_iff] at he
            exact he hnil
          obtain ⟨it, hit⟩ := List.exists_mem_of_ne_nil _ hne
          have hall := (foldl_minKey_none_iff _).1 h0
          have hkey := hall _ (List.mem_map_of_mem (App2.getItemRate · scale) hit)
          rw [List.mem_filter] at hit
          exact ⟨it, hit.1, by simpa using hit.2, hkey⟩
        · rw [List.mem_map] at hmem
          obtain ⟨it, hit, hkey⟩ := hmem
          rw [List.mem_filter] at hit
          exact ⟨it, hit.1, by simpa using hit.2, hkey⟩
      · intro it hmem hcomp
        exact (foldl_minKey_le _ none).2 _
          (List.mem_map_of_mem _ (List.mem_filter.2 ⟨hmem, by simp [hcomp]⟩))
  · intro items scale
    rw [bestRate1_as_fold]
    by_cases he : (items.filter (fun it => it.status = .complete)).isEmpty = true
    · rw [if_pos he]
      have hall := (filter_complete_empty_iff items).1 he
      refine ⟨fun _ it hmem hcomp => ?_, fun _ => rfl⟩
      exact absurd hcomp (hall it hmem)
    · rw [if_neg he, foldl_minKey_none_iff]
      constructor
      · intro hall it hmem hcomp
        exact hall _ (List.mem_map_of_mem _ (List.mem_filter.2 ⟨hmem, by simp [hcomp]⟩))
      · intro hall x hx
        rw [List.mem_map] at hx
        obtain ⟨it, hit, hkey⟩ := hx
        rw [List.mem_filter] at hit
        exact hkey ▸ hall it hit.1 (by simpa using hit.2)
  · intro items scale b h
    rw [bestRate1_as_fold] at h
    by_cases he : (items.filter (fun it => it.status = .complete)).isEmpty = true
    · rw [if_pos he] at h
      exact absurd h (by simp)
    · rw [if_neg he] at h
      constructor
      · rcases foldl_minKey_mem
          ((items.filter (fun it => it.status = .complete)).map (App1.getItemRate · scale))
          none with h0 | hmem
        · rw [h0] at h
          exact absurd h (by simp)
        · rw [h] at hmem
          rw [List.mem_map] at hmem
          obtain ⟨it, hit, hkey⟩ := hmem
          rw [List.mem_filter] at hit
          exact ⟨it, hit.1, by simpa using hit.2, hkey⟩
      · intro it hmem hcomp
        have hle := (foldl_minKey_le
          ((items.filter (fun it => it.status = .complete)).map (App1.getItemRate · scale))
          none).2 _ (List.mem_map_of_mem _ (List.mem_filter.2 ⟨hmem, by simp [hcomp]⟩))
        rw [h] at hle
        exact hle
  · intro items scale it h
    have hf : (it :: items).filter (fun x => x.status = .complete)
        = items.filter (fun x => x.status = .complete) :=
      List.filter_cons_of_neg (by simp [h])
    constructor
    · rw [bestRate1_as_fold, bestRate1_as_fold, hf]
    · rw [bestRate2_as_fold, bestRate2_as_fold, hf]
  · intro it scale b h
    have hrate := getItemRate1_not_complete it scale h
    unfold App1.isBest
    rw [hrate]
    cases b <;> rfl
  · intro it scale b h
    have hrate := getItemRate2_not_complete it scale h
    unfold App2.isBest
    rw [hrate]
    cases b with
    | none => rfl
    | some bv =>
      by_cases h0 : bv = some 0
      · simp [h0]
      · cases bv <;> simp [h0]

/-- C6 witness: the empty collection has no best-rate. -/
theorem best_rate_ready_minimum_witness :
    App2.bestRate ([] : List GroceryItem) .small = none :=
  (best_rate_ready_minimum.1 [] .small).2 (by simp)

/-- C7: `getDisplayRate` is exactly the fixed table lookup — weight maps
to 1KG under `large` and 100G otherwise, volume to 1L under `large` and
100ML otherwise, count to UNIT under every scale — returning the looked
up rate with its label and performing no recomputation. -/
theorem getDisplayRate_is_lookup (rates : RateTable) (scale : GlobalComparisonUnit)
    (category : UnitCategory) :
    getDisplayRate rates scale category
      = (rates.lookup (displayKey scale category), displayKey scale category) := by
  cases category <;> cases scale <;> rfl

/-- C8: toggling the scale leaves the item collection — hence every rate
table, status and raw field — unchanged, swaps `small` and `large`, and
the ranking recomputed under the new scale is ascending in the newly
selected denomination's keys (within status bands) for both variants. -/
theorem toggleScale_frame (s : AppState) :
    (toggleScale s).items = s.items ∧
    (s.scale = .small → (toggleScale s).scale = .large) ∧
    (s.scale = .large → (toggleScale s).scale = .small) ∧
    (App1.sortedItems s.items (toggleScale s).scale).Pairwise
      (RankerOrder (App1.getItemRate · (toggleScale s).scale)) ∧
    (App2.sortedItems s.items (toggleScale s).scale).Pairwise
      (RankerOrder (App2.getItemRate · (toggleScale s).scale)) := by
  refine ⟨rfl, ?_, ?_, insertionSort_rankerOrder _ _, insertionSort_rankerOrder _ _⟩
  · intro h
    simp [toggleScale, toggleScaleValue, h]
  · intro h
    simp [toggleScale, toggleScaleValue, h]

/-- C8 witness: toggling from `small` keeps the (empty) collection and
selects `large`. -/
theorem toggleScale_frame_witness :
    (toggleScale ⟨[], .small⟩).items = ([] : List GroceryItem) ∧
    (toggleScale ⟨[], .small⟩).scale = .large :=
  ⟨(toggleScale_frame ⟨[], .small⟩).1, (toggleScale_frame ⟨[], .small⟩).2.1 rfl⟩

/-- C9 counterexample: a ready count item with stored UNIT rate 0 (price
0).  The first variant's extractor yields `Infinity` while the second
yields `0`, so the two are not extensionally equal. -/
theorem getItemRate_variants_disagree :
    App1.getItemRate freeCountItem .small ≠ App2.getItemRate freeCountItem .small ∧
    App1.getItemRate freeCountItem .small = none ∧
    App2.getItemRate freeCountItem .small = some 0 := by
  refine ⟨?_, ?_, ?_⟩ <;> decide

/-- C9 amended: the two extractors agree on every item except a ready one
whose fallback chain `rates[key] || rates['UNIT']` produces a stored `0`
(selected rate absent or zero and UNIT rate present and zero); there the
first variant returns `Infinity` and the second returns `0`. -/
theorem getItemRate_agreement (item : GroceryItem) (scale : GlobalComparisonUnit) :
    (¬(item.status = .complete ∧ chainVal item scale = some (some 0)) →
      App1.getItemRate item scale = App2.getItemRate item scale) ∧
    (item.status = .complete ∧ chainVal item scale = some (some 0) →
      App1.getItemRate item scale = none ∧ App2.getItemRate item scale = some 0) := by
  by_cases hst : item.status = .complete
  · cases hnr : item.normalizedRates with
    | none => simp [chainVal, App1.getItemRate, App2.getItemRate, hst, hnr]
    | some r =>
      cases hch : jsOr (r.lookup (rateKey item.category scale)) (r.lookup "UNIT") with
      | none => simp [chainVal, App1.getItemRate, App2.getItemRate, hst, hnr, hch]
      | some v =>
        by_cases hv : v = 0
        · subst hv
          simp [chainVal, App1.getItemRate, App2.getItemRate, hst, hnr, hch]
        · simp [chainVal, App1.getItemRate, App2.getItemRate, hst, hnr, hch, hv]
  · simp [getItemRate1_not_complete _ _ hst, getItemRate2_not_complete _ _ hst, hst]

/-- C9 witness: the two extractors agree on a ready item with an empty
rate table. -/
theorem getItemRate_agreement_witness :
    App1.getItemRate emptyRatesItem .small = App2.getItemRate emptyRatesItem .small :=
  (getItemRate_agreement emptyRatesItem .small).1 (by decide)

/-- C10: with quantity 0 on the count path the `count || 1` guard
substitutes 1, so for every price and unrecognized unit the call returns
UNIT = price and DOZEN = 12·price — no division by zero occurs. -/
theorem normalize_zero_quantity (price : ℚ) (unit : String)
    (hw : gramsFactor (normUnit unit) = none)
    (hv : mlFactor (normUnit unit) = none) :
    (getNormalizedData price 0 unit).category = .count ∧
    (getNormalizedData price 0 unit).rates.lookup "UNIT" = some price ∧
    (getNormalizedData price 0 unit).rates.lookup "DOZEN" = some (12 * price) := by
  rw [getNormalizedData_count price 0 unit hw hv]
  refine ⟨rfl, ?_, ?_⟩ <;> simp [countRates, List.lookup] <;> ring

/-- C10 witness: price 5, quantity 0, unit not in the synonym table. -/
theorem normalize_zero_quantity_witness :
    (getNormalizedData 5 0 "widget").rates.lookup "UNIT" = some 5 ∧
    (getNormalizedData 5 0 "widget").rates.lookup "DOZEN" = some (12 * (5:ℚ)) :=
  ⟨(normalize_zero_quantity 5 "widget" (by decide) (by decide)).2.1,
    (normalize_zero_quantity 5 "widget" (by decide) (by decide)).2.2⟩

end PriceWise
